import Mathlib

/-!
Verification development for the `share` server's storage layer and WebDAV
directory adapter (Go sources: `server/internal/storage/*.go`,
`server/internal/api/webdav.go`).

The store is modelled as explicit state: an association list from id to blob
bytes (`files`) and from id to metadata record (`meta`).  For the filesystem
backend the two lists stand for the `files/` and `meta/` sub-directories of
the base path (an entry `(id, it)` of `meta` stands for a file named
`<id>.json` holding `it` serialized); for the object-store backend they stand
for the keys `files/<id>` and `meta/<id>.json` of the bucket.  Bytes are
`List Nat`.  `time.Time` values are modelled as `Nat` timestamps
(`t.After u` is `u < t`); `int64` sizes, which are always byte counts here,
are modelled as `Nat`.

Fallible external effects (file creation, object upload, compensating
removal) are driven by an explicit environment of failure flags, so that the
error-handling paths of `Put` (blob-then-metadata sequencing with
compensating cleanup) can be examined.
-/

/-- `storage.Item` (part_007): metadata record for one stored blob. -/
structure Item where
  id : String
  filename : String
  contentType : String
  size : Nat
  renderMode : String
  createdAt : Nat
  ownerToken : String
deriving DecidableEq, Repr

/-- The durable state of one storage backend: blobs and metadata records,
each keyed by id. -/
structure StoreState where
  files : List (String × List Nat)
  meta : List (String × Item)
deriving DecidableEq, Repr

/-- Create-or-truncate of the entry for `k` (what `os.Create` /
`PutObject` do): any previous entry for `k` is replaced. -/
def setEntry (l : List (String × α)) (k : String) (v : α) : List (String × α) :=
  (k, v) :: l.filter (fun e => e.1 ≠ k)

/-- Removal of the entry for `k` (what `os.Remove` / `DeleteObject` do). -/
def removeEntry (l : List (String × α)) (k : String) : List (String × α) :=
  l.filter (fun e => e.1 ≠ k)

/-- Lookup of the entry for `k` (what `os.Open` / `GetObject` do). -/
def lookupEntry : List (String × α) → String → Option α
  | [], _ => none
  | e :: t, k => if e.1 = k then some e.2 else lookupEntry t k

/-- Lexicographic comparison of character sequences, used to model the
orders in which `os.ReadDir` returns directory entries and the object
store's paginator returns keys (byte order; for the ASCII names used here,
Unicode-scalar order coincides with byte order). -/
def strLeChars : List Char → List Char → Bool
  | [], _ => true
  | _ :: _, [] => false
  | a :: as, b :: bs =>
    if a.toNat < b.toNat then true
    else if b.toNat < a.toNat then false
    else strLeChars as bs

/-- Lexicographic order on strings (see `strLeChars`). -/
def strLe (a b : String) : Bool := strLeChars a.data b.data

namespace Filesystem

/-- Failure environment for one `Filesystem.Put` call: which of the four
fallible steps fail, and whether the compensating `os.Remove` of the blob
file (whose error the code discards) actually removes it. -/
structure PutEnv where
  createFileFails : Bool
  copyFails : Bool
  createMetaFails : Bool
  encodeFails : Bool
  removeFileWorks : Bool
deriving DecidableEq, Repr

/-- The all-success environment. -/
def noFail : PutEnv := ⟨false, false, false, false, true⟩

/-- Best-effort `os.Remove(f.filePath(id))`: the call's error is discarded,
so when it fails the blob entry stays. -/
def cleanupFile (env : PutEnv) (st : StoreState) (id : String) : StoreState :=
  if env.removeFileWorks then { st with files := removeEntry st.files id } else st

/-- `Filesystem.Put` (part_006 lines 44-74): create the blob file, copy the
content into it (filling `item.Size` with the byte count), then create and
encode the metadata file; on a metadata failure the blob file is removed
best-effort and the metadata error is returned.  On an encode failure the
just-created metadata file is also removed (a failed remove would leave an
empty, unparsable file, which we model as absent). -/
def Put (env : PutEnv) (st : StoreState) (id : String) (content : List Nat)
    (item : Item) : StoreState × Except String Item :=
  if env.createFileFails then (st, .error "failed to create file")
  else
    if env.copyFails then
      ({ st with files := removeEntry st.files id }, .error "failed to write file")
    else
      let st1 : StoreState := { st with files := setEntry st.files id content }
      let item1 : Item := { item with size := content.length }
      if env.createMetaFails then
        (cleanupFile env st1 id, .error "failed to create metadata file")
      else
        if env.encodeFails then
          ({ cleanupFile env st1 id with meta := removeEntry st.meta id },
            .error "failed to write metadata")
        else
          ({ st1 with meta := setEntry st.meta id item1 }, .ok item1)

/-- `Filesystem.GetMeta` (part_006 lines 95-111): open the metadata file;
absence is `"item not found"` (NotFound).  Records written by `Put` always
decode, so the decode-failure branch is unreachable in the model. -/
def GetMeta (st : StoreState) (id : String) : Except String Item :=
  match lookupEntry st.meta id with
  | none => .error "item not found"
  | some it => .ok it

/-- `Filesystem.Get` (part_006 lines 77-92): metadata first, then the blob
file; a missing blob under existing metadata is `"file not found"`. -/
def Get (st : StoreState) (id : String) : Except String (List Nat × Item) :=
  match GetMeta st id with
  | .error e => .error e
  | .ok it =>
    match lookupEntry st.files id with
    | none => .error "file not found"
    | some bs => .ok (bs, it)

/-- `Filesystem.Delete` (part_006 lines 114-119): remove both files,
ignoring errors; never returns an error. -/
def Delete (st : StoreState) (id : String) : StoreState × Option String :=
  ({ files := removeEntry st.files id, meta := removeEntry st.meta id }, none)

/-- `Filesystem.List` (part_006 lines 122-153): `os.ReadDir` enumerates the
metadata directory sorted by file name (so by id), each entry is decoded
(every entry of `meta` stands for a parse-clean `<id>.json` file, so the
`.json`-extension and parse-failure skips select everything), items are
filtered by exact owner-token match, and the result is sorted newest-first
by `CreatedAt` (`sort.Slice` with `After`). -/
def List (st : StoreState) (owner : String) : List Item :=
  ((((st.meta.insertionSort (fun a b => strLe a.1 b.1 = true)).map (·.2)).filter
      (fun it => it.ownerToken = owner)).insertionSort
    (fun a b => b.createdAt ≤ a.createdAt))

end Filesystem

namespace S3Storage

/-- The bucket key of an id's metadata object (`s3.go` `metaKey`). -/
def metaKey (id : String) : String := "meta/" ++ id ++ ".json"

/-- Failure environment for one `S3Storage.Put` call: which fallible step
fails, and whether the compensating `DeleteObject` of the blob key (whose
result the code discards) actually deletes it. -/
structure PutEnv where
  readFails : Bool
  putFileFails : Bool
  marshalFails : Bool
  putMetaFails : Bool
  deleteFileWorks : Bool
deriving DecidableEq, Repr

/-- The all-success environment. -/
def noFail : PutEnv := ⟨false, false, false, false, true⟩

/-- `S3Storage.Put` (s3.go lines 77-119): buffer the content (filling
`item.Size`), upload the blob object, marshal the metadata, upload the
metadata object; on a metadata-upload failure the blob object is deleted
best-effort and the metadata error is returned.  A marshal failure (dead in
practice) returns without cleanup, exactly as in the source. -/
def Put (env : PutEnv) (st : StoreState) (id : String) (content : List Nat)
    (item : Item) : StoreState × Except String Item :=
  if env.readFails then (st, .error "failed to read content")
  else
    let item1 : Item := { item with size := content.length }
    if env.putFileFails then (st, .error "failed to upload file")
    else
      let st1 : StoreState := { st with files := setEntry st.files id content }
      if env.marshalFails then (st1, .error "failed to marshal metadata")
      else
        if env.putMetaFails then
          ((if env.deleteFileWorks then { st1 with files := removeEntry st1.files id }
            else st1), .error "failed to upload metadata")
        else
          ({ st1 with meta := setEntry st.meta id item1 }, .ok item1)

/-- `S3Storage.GetMeta` (s3.go lines 140-156): any `GetObject` failure on
the metadata key is reported as `"item not found"`.  Records written by
`Put` always decode, so the decode-failure branch is unreachable. -/
def GetMeta (st : StoreState) (id : String) : Except String Item :=
  match lookupEntry st.meta id with
  | none => .error "item not found"
  | some it => .ok it

/-- `S3Storage.Get` (s3.go lines 122-137): metadata first, then the blob
object; a missing blob under existing metadata is `"failed to get file"`
(the wrapped client error is elided). -/
def Get (st : StoreState) (id : String) : Except String (List Nat × Item) :=
  match GetMeta st id with
  | .error e => .error e
  | .ok it =>
    match lookupEntry st.files id with
    | none => .error "failed to get file"
    | some bs => .ok (bs, it)

/-- `S3Storage.Delete` (s3.go lines 159-170): delete both objects,
discarding the results; never returns an error. -/
def Delete (st : StoreState) (id : String) : StoreState × Option String :=
  ({ files := removeEntry st.files id, meta := removeEntry st.meta id }, none)

/-- `S3Storage.List` (s3.go lines 173-206): the paginator enumerates the
keys under `meta/` in lexicographic key order; keys of length ≤ 10
(i.e. an empty id) are skipped, each id's metadata is fetched (skipping
fetch failures), and items are filtered by exact owner-token match.
No sort is applied afterwards. -/
def List (st : StoreState) (owner : String) : List Item :=
  (((st.meta.insertionSort (fun a b => strLe (metaKey a.1) (metaKey b.1) = true)).filter
      (fun e => 10 < (metaKey e.1).length)).map (·.2)).filter
    (fun it => it.ownerToken = owner)

end S3Storage

/-- The `storage.Storage` interface (part_007 lines 24-39): the five
operations each backend provides. -/
structure Backend where
  put : StoreState → String → List Nat → Item → StoreState × Except String Item
  get : StoreState → String → Except String (List Nat × Item)
  getMeta : StoreState → String → Except String Item
  delete : StoreState → String → StoreState × Option String
  list : StoreState → String → List Item

/-- The filesystem backend with no injected failures. -/
def fsBackend : Backend :=
  ⟨Filesystem.Put Filesystem.noFail, Filesystem.Get, Filesystem.GetMeta,
    Filesystem.Delete, Filesystem.List⟩

/-- The object-store backend with no injected failures. -/
def s3Backend : Backend :=
  ⟨S3Storage.Put S3Storage.noFail, S3Storage.Get, S3Storage.GetMeta,
    S3Storage.Delete, S3Storage.List⟩

/-! ## Content-type detection (webdav.go / handlers, part_005 lines 307-357)

`generateID` draws 12 random bytes and hex-encodes them; randomness and the
clock are environment inputs, so the fresh id and the current time are
explicit parameters of the definitions that use them. -/

/-- Helper for `filepathExt`: walk the path's characters from the end
(`acc` is the suffix already passed over, in original order); stop at a path
separator, return the suffix from the final dot. -/
def extFromRev : List Char → List Char → String
  | [], _ => ""
  | c :: rest, acc =>
    if c = '/' then ""
    else if c = '.' then ⟨c :: acc⟩
    else extFromRev rest (c :: acc)

/-- Modelled from the Go standard library `path/filepath.Ext`: the suffix
beginning at the final dot in the final slash-separated element, empty if
there is no dot. -/
def filepathExt (s : String) : String :=
  extFromRev s.data.reverse []

/-- Modelled from the Go standard library `strings.ToLower` (ASCII case is
all these call sites need). -/
def stringToLower (s : String) : String :=
  ⟨s.data.map Char.toLower⟩

/-- Modelled from the Go standard library `mime.TypeByExtension` builtin
table (abridged to common entries; unknown extensions give `""`). -/
def mimeTypeByExtension (ext : String) : String :=
  match ext with
  | ".html" => "text/html; charset=utf-8"
  | ".htm" => "text/html; charset=utf-8"
  | ".css" => "text/css; charset=utf-8"
  | ".js" => "text/javascript; charset=utf-8"
  | ".mjs" => "text/javascript; charset=utf-8"
  | ".json" => "application/json"
  | ".txt" => "text/plain; charset=utf-8"
  | ".pdf" => "application/pdf"
  | ".png" => "image/png"
  | ".jpg" => "image/jpeg"
  | ".jpeg" => "image/jpeg"
  | ".gif" => "image/gif"
  | ".svg" => "image/svg+xml"
  | ".webp" => "image/webp"
  | ".xml" => "text/xml; charset=utf-8"
  | ".wasm" => "application/wasm"
  | _ => ""

/-- Modelled (abridged) from the Go standard library
`net/http.DetectContentType`: a few magic-number signatures, then
`text/plain` for bytes free of binary control characters in the first 512
bytes, `application/octet-stream` otherwise. -/
def httpDetectContentType (content : List Nat) : String :=
  if content.take 8 = [137, 80, 78, 71, 13, 10, 26, 10] then "image/png"
  else if content.take 3 = [255, 216, 255] then "image/jpeg"
  else if content.take 5 = [37, 80, 68, 70, 45] then "application/pdf"
  else if (content.take 512).all
      (fun b => 32 ≤ b ∨ b = 9 ∨ b = 10 ∨ b = 12 ∨ b = 13 ∨ b = 27) then
    "text/plain; charset=utf-8"
  else "application/octet-stream"

/-- The extension-based part of `detectContentType` (part_005 lines
315-349): the mime table first, then the hand-written switch over the
lowercased extension; `""` when neither matches (every switch arm returns a
non-empty string, so `""` exactly marks the fall-through to sniffing). -/
def detectByExtension (filename : String) : String :=
  let ext := filepathExt filename
  let m := mimeTypeByExtension ext
  if m ≠ "" then m
  else
    match stringToLower ext with
    | ".md" | ".markdown" => "text/markdown"
    | ".ts" => "text/typescript"
    | ".tsx" => "text/tsx"
    | ".jsx" => "text/jsx"
    | ".yaml" | ".yml" => "text/yaml"
    | ".toml" => "text/toml"
    | ".go" => "text/x-go"
    | ".rs" => "text/x-rust"
    | ".py" => "text/x-python"
    | ".rb" => "text/x-ruby"
    | ".sh" | ".bash" => "text/x-shellscript"
    | ".sql" => "text/x-sql"
    | ".dockerfile" => "text/x-dockerfile"
    | _ => ""

/-- `detectContentType` (part_005 lines 313-357): extension first, then
content sniffing when there are bytes, `"text/plain"` for an empty blob. -/
def detectContentType (filename : String) (content : List Nat) : String :=
  if filename ≠ "" ∧ detectByExtension filename ≠ "" then detectByExtension filename
  else if content.length > 0 then httpDetectContentType content
  else "text/plain"

/-! ## WebDAV directory adapter (webdav.go) -/

/-- The errors the adapter surfaces (`os.ErrNotExist`, `os.ErrPermission`,
`os.ErrInvalid`, `io.EOF`). -/
inductive DavError where
  | notExist
  | permission
  | invalid
  | eof
deriving DecidableEq, Repr

/-- `davFileInfo` (webdav.go lines 241-247). -/
structure FileInfo where
  name : String
  size : Nat
  mode : Nat
  modTime : Nat
  isDir : Bool
deriving DecidableEq, Repr

/-- `os.FileMode(0644)`. -/
def fileMode : Nat := 420

/-- `os.ModeDir | 0755`. -/
def dirMode : Nat := 2147483648 + 493

/-- `davWriteFile` (webdav.go lines 303-310) minus its storage reference,
which is passed explicitly to `Close`. -/
structure davWriteFile where
  name : String
  token : String
  buffer : List Nat
  maxFileSize : Int
  closed : Bool
deriving DecidableEq, Repr

/-- `davDir` (webdav.go lines 258-262). -/
structure davDir where
  info : FileInfo
  children : List FileInfo
  pos : Nat
deriving DecidableEq, Repr

/-- The three concrete `webdav.File` implementations the adapter hands out:
a synthetic directory, a fully-buffered read-only file, a buffered write
handle. -/
inductive DavFile where
  | dir (d : davDir)
  | file (info : FileInfo) (data : List Nat)
  | write (f : davWriteFile)
deriving DecidableEq, Repr

/-- `davWriteFile.Write` (webdav.go lines 334-339): reject the call when a
positive cap would be exceeded by the cumulative buffered length, otherwise
append to the buffer.  The handle holds a reference to its backend but
`Write`'s body performs no storage call; carrying the store through the
signature makes that frame property expressible. -/
def davWriteFile.Write (f : davWriteFile) (st : StoreState) (p : List Nat) :
    davWriteFile × StoreState × Nat × Option String :=
  if f.maxFileSize > 0 ∧ (f.buffer.length + p.length : Int) > f.maxFileSize then
    (f, st, 0, some "file too large")
  else ({ f with buffer := f.buffer ++ p }, st, p.length, none)

/-- `davWriteFile.Close` (webdav.go lines 312-330): a no-op when already
closed; otherwise mark closed, build the Item (size is filled in by Put)
and commit the buffer through the backend's Put.  `freshId` is
`generateID()`'s output and `now` is `time.Now().UTC()`. -/
def davWriteFile.Close (B : Backend) (f : davWriteFile) (st : StoreState)
    (freshId : String) (now : Nat) : davWriteFile × StoreState × Option String :=
  if f.closed then (f, st, none)
  else
    let item : Item :=
      { id := freshId, filename := f.name,
        contentType := detectContentType f.name f.buffer,
        size := 0, renderMode := "auto", createdAt := now, ownerToken := f.token }
    let r := B.put st freshId f.buffer item
    ({ f with closed := true }, r.1,
      match r.2 with
      | .ok _ => none
      | .error e => some e)

/-- `davDir.Readdir` (webdav.go lines 270-285). -/
def davDir.Readdir (d : davDir) (count : Int) :
    davDir × List FileInfo × Option DavError :=
  if d.children.length ≤ d.pos then
    if count ≤ 0 then (d, [], none) else (d, [], some .eof)
  else
    let c : Nat :=
      if count ≤ 0 ∨ ((d.children.length : Int) - d.pos) < count then
        d.children.length - d.pos
      else count.toNat
    ({ d with pos := d.pos + c }, (d.children.drop d.pos).take c, none)

namespace WebDAV

/-- `cleanPath` (webdav.go lines 233-237): `strings.TrimPrefix`/`TrimSuffix`
remove one occurrence of `"/"` when present (implemented on the character
sequence so that it evaluates by kernel reduction). -/
def cleanPath (name : String) : String :=
  let n : String := if name.data.take 1 = ['/'] then ⟨name.data.drop 1⟩ else name
  if n.data.getLast? = some '/' then ⟨n.data.dropLast⟩ else n

/-- Go `os.O_WRONLY` on linux. -/
def O_WRONLY : Nat := 1

/-- Go `os.O_RDWR` on linux. -/
def O_RDWR : Nat := 2

/-- Go `os.O_CREATE` on linux. -/
def O_CREATE : Nat := 64

/-- The flag test of `OpenFile` (webdav.go line 145). -/
def hasWriteIntent (flag : Nat) : Bool :=
  (flag &&& O_CREATE != 0) || (flag &&& O_WRONLY != 0) || (flag &&& O_RDWR != 0)

/-- The display name an item gets in the synthetic directory: `Filename`,
or `ID` when no filename was recorded (webdav.go lines 161-164, 221-224). -/
def displayName (it : Item) : String :=
  if it.filename = "" then it.id else it.filename

/-- `findByFilename` (webdav.go lines 214-231): the first item in `List`'s
order whose displayed name equals the path component; `none` is
`os.ErrNotExist`. -/
def findByFilename (B : Backend) (st : StoreState) (token name : String) :
    Option Item :=
  (B.list st token).find? (fun it => displayName it = name)

/-- `openRootDir` (webdav.go lines 153-178). -/
def openRootDir (B : Backend) (st : StoreState) (token : String) (now : Nat) :
    DavFile :=
  .dir
    { info := { name := "/", size := 0, mode := dirMode, modTime := now, isDir := true },
      children := (B.list st token).map (fun it =>
        { name := displayName it, size := it.size, mode := fileMode,
          modTime := it.createdAt, isDir := false }),
      pos := 0 }

/-- `openFile` (webdav.go lines 180-202): resolve by filename, read the
whole blob into memory; any `Get` failure surfaces as `os.ErrNotExist`. -/
def openFile (B : Backend) (st : StoreState) (token name : String) :
    Except DavError DavFile :=
  match findByFilename B st token name with
  | none => .error .notExist
  | some item =>
    match B.get st item.id with
    | .error _ => .error .notExist
    | .ok (data, _) =>
      .ok (.file { name := item.filename, size := item.size, mode := fileMode,
                   modTime := item.createdAt, isDir := false } data)

/-- `createFile` (webdav.go lines 204-212): a fresh empty buffered write
handle; the store is not consulted. -/
def createFile (maxFileSize : Int) (token name : String) : DavFile :=
  .write { name := name, token := token, buffer := [],
           maxFileSize := maxFileSize, closed := false }

/-- `WebDAVHandler.OpenFile` (webdav.go lines 135-151): root listing for
the root path, a fresh write handle for write-intent flags, otherwise a
read handle on the resolved existing item. -/
def OpenFile (B : Backend) (maxFileSize : Int) (st : StoreState)
    (token nameArg : String) (flag : Nat) (now : Nat) : Except DavError DavFile :=
  let name := cleanPath nameArg
  if name = "" ∨ name = "/" then .ok (openRootDir B st token now)
  else if hasWriteIntent flag then .ok (createFile maxFileSize token name)
  else openFile B st token name

/-- `WebDAVHandler.Stat` (webdav.go lines 106-133). -/
def Stat (B : Backend) (st : StoreState) (token nameArg : String) (now : Nat) :
    Except DavError FileInfo :=
  let name := cleanPath nameArg
  if name = "" ∨ name = "/" then
    .ok { name := "/", size := 0, mode := dirMode, modTime := now, isDir := true }
  else
    match findByFilename B st token name with
    | none => .error .notExist
    | some item =>
      .ok { name := item.filename, size := item.size, mode := fileMode,
            modTime := item.createdAt, isDir := false }

end WebDAV

/-! ## Concrete fixtures

Small concrete stores used to exhibit behaviors at explicit inputs. -/

/-- An item with id `"aa"`, created at time 1, owned by `"t"`. -/
def itemOldA : Item := ⟨"aa", "f.txt", "text/plain", 1, "auto", 1, "t"⟩

/-- An item with id `"bb"`, displayed under the same name as `itemOldA`,
created later (time 5), owned by `"t"`. -/
def itemNewB : Item := ⟨"bb", "f.txt", "text/plain", 2, "auto", 5, "t"⟩

/-- An item of a different owner. -/
def itemOtherC : Item := ⟨"cc", "g.txt", "text/plain", 3, "auto", 3, "u"⟩

/-- A store holding the three items above with their blobs. -/
def exampleSt : StoreState :=
  ⟨[("aa", [1]), ("bb", [2, 2]), ("cc", [3, 3, 3])],
    [("bb", itemNewB), ("aa", itemOldA), ("cc", itemOtherC)]⟩

/-- A store holding metadata for `"aa"` but no blob for it. -/
def metaOnlySt : StoreState := ⟨[], [("aa", itemOldA)]⟩

/-! ## Association-list lemmas -/

theorem lookupEntry_filter_ne (l : List (String × α)) (k k' : String)
    (h : k' ≠ k) :
    lookupEntry (l.filter (fun e => e.1 ≠ k)) k' = lookupEntry l k' := by
  induction l with
  | nil => rfl
  | cons e t ih =>
    rw [List.filter_cons]
    by_cases hek : e.1 = k
    · rw [if_neg (by simp [hek]), ih]
      have hne : e.1 ≠ k' := fun hk => h (hk ▸ hek)
      simp only [lookupEntry]
      rw [if_neg hne]
    · rw [if_pos (by simp [hek])]
      simp only [lookupEntry]
      rw [ih]

theorem lookupEntry_setEntry_self (l : List (String × α)) (k : String) (v : α) :
    lookupEntry (setEntry l k v) k = some v := by
  simp [lookupEntry, setEntry]

theorem lookupEntry_setEntry_ne (l : List (String × α)) (k k' : String) (v : α)
    (h : k' ≠ k) : lookupEntry (setEntry l k v) k' = lookupEntry l k' := by
  have hkk : (k, v).1 ≠ k' := fun hk => h hk.symm
  show lookupEntry ((k, v) :: l.filter (fun e => e.1 ≠ k)) k' = lookupEntry l k'
  simp only [lookupEntry]
  rw [if_neg hkk, lookupEntry_filter_ne l k k' h]

theorem lookupEntry_removeEntry_self (l : List (String × α)) (k : String) :
    lookupEntry (removeEntry l k) k = none := by
  induction l with
  | nil => rfl
  | cons e t ih =>
    by_cases hek : e.1 = k <;> simp [removeEntry, List.filter_cons, hek, lookupEntry, ih] <;>
      simpa [removeEntry] using ih

theorem lookupEntry_removeEntry_ne (l : List (String × α)) (k k' : String)
    (h : k' ≠ k) : lookupEntry (removeEntry l k) k' = lookupEntry l k' :=
  lookupEntry_filter_ne l k k' h

theorem removeEntry_removeEntry (l : List (String × α)) (k : String) :
    removeEntry (removeEntry l k) k = removeEntry l k := by
  simp [removeEntry, List.filter_filter]

/-! ## Claim theorems -/

/-- C1: for every id, content and item, a successful `Put(id, content,
item)` followed by `Get(id)` returns bytes identical to `content` and an
item whose `size` equals the byte length of `content`, on both the
filesystem backend and the object-store backend. -/
theorem put_get_roundtrip (st : StoreState) (id : String) (content : List Nat)
    (item : Item) :
    (Filesystem.Put Filesystem.noFail st id content item).2 =
      .ok { item with size := content.length } ∧
    Filesystem.Get (Filesystem.Put Filesystem.noFail st id content item).1 id =
      .ok (content, { item with size := content.length }) ∧
    (S3Storage.Put S3Storage.noFail st id content item).2 =
      .ok { item with size := content.length } ∧
    S3Storage.Get (S3Storage.Put S3Storage.noFail st id content item).1 id =
      .ok (content, { item with size := content.length }) ∧
    ({ item with size := content.length } : Item).size = content.length := by
  refine ⟨rfl, ?_, rfl, ?_, rfl⟩ <;>
    simp [Filesystem.Put, Filesystem.noFail, Filesystem.Get, Filesystem.GetMeta,
      S3Storage.Put, S3Storage.noFail, S3Storage.Get, S3Storage.GetMeta,
      lookupEntry_setEntry_self]

/-- C6: for every id and store, `Delete(id)` returns no error, a `Get(id)`
after it fails with NotFound (`"item not found"`), and deleting again (or
deleting an id that was never stored, since the store is arbitrary) changes
nothing and returns no error, on both backends. -/
theorem delete_get_notfound_idempotent (st : StoreState) (id : String) :
    (Filesystem.Delete st id).2 = none ∧
    Filesystem.Get (Filesystem.Delete st id).1 id = .error "item not found" ∧
    Filesystem.Delete (Filesystem.Delete st id).1 id = Filesystem.Delete st id ∧
    (S3Storage.Delete st id).2 = none ∧
    S3Storage.Get (S3Storage.Delete st id).1 id = .error "item not found" ∧
    S3Storage.Delete (S3Storage.Delete st id).1 id = S3Storage.Delete st id := by
  refine ⟨rfl, ?_, ?_, rfl, ?_, ?_⟩ <;>
    simp [Filesystem.Delete, Filesystem.Get, Filesystem.GetMeta,
      S3Storage.Delete, S3Storage.Get, S3Storage.GetMeta,
      lookupEntry_removeEntry_self, removeEntry_removeEntry]

/-- C3: a `Write` on a handle with a positive configured cap whose bytes
would push the cumulative buffered length over the cap returns an error,
leaves the handle (in particular its buffer) unchanged, and performs no
storage operation — the store passes through untouched, so no backend `Put`
results from the call. -/
theorem write_cap_rejected (f : davWriteFile) (st : StoreState) (p : List Nat)
    (hcap : f.maxFileSize > 0)
    (hover : (f.buffer.length + p.length : Int) > f.maxFileSize) :
    f.Write st p = (f, st, 0, some "file too large") := by
  simp [davWriteFile.Write, hcap, hover]

theorem write_cap_rejected_witness :
    davWriteFile.Write ⟨"n", "t", [1, 2], 3, false⟩ ⟨[], []⟩ [9, 9] =
      (⟨"n", "t", [1, 2], 3, false⟩, ⟨[], []⟩, 0, some "file too large") :=
  write_cap_rejected ⟨"n", "t", [1, 2], 3, false⟩ ⟨[], []⟩ [9, 9]
    (by decide) (by decide)

/-- C4: on both backends, when the blob write succeeds and the following
metadata write fails (for the filesystem backend: creating the metadata
file, or encoding into it; for the object store: uploading the metadata
object), `Put` returns that metadata-write error — for either outcome `b`
of the compensating removal, whose failure is thus never surfaced — and
when the compensating removal works the just-written blob is gone. -/
theorem put_metadata_failure_cleanup (st : StoreState) (id : String)
    (content : List Nat) (item : Item) (b : Bool) :
    ((Filesystem.Put ⟨false, false, true, false, b⟩ st id content item).2 =
      .error "failed to create metadata file") ∧
    (lookupEntry
      (Filesystem.Put ⟨false, false, true, false, true⟩ st id content item).1.files
      id = none) ∧
    ((Filesystem.Put ⟨false, false, false, true, b⟩ st id content item).2 =
      .error "failed to write metadata") ∧
    (lookupEntry
      (Filesystem.Put ⟨false, false, false, true, true⟩ st id content item).1.files
      id = none) ∧
    ((S3Storage.Put ⟨false, false, false, true, b⟩ st id content item).2 =
      .error "failed to upload metadata") ∧
    (lookupEntry
      (S3Storage.Put ⟨false, false, false, true, true⟩ st id content item).1.files
      id = none) := by
  refine ⟨rfl, ?_, rfl, ?_, rfl, ?_⟩ <;>
    simp [Filesystem.Put, Filesystem.cleanupFile, S3Storage.Put,
      lookupEntry_removeEntry_self]

/-- C7: on both backends `Get(id)` fails with the NotFound error
`"item not found"` when the metadata record is absent, and when the
metadata record exists but the blob is absent it fails with an IO error
(`"file not found"` on the filesystem backend, `"failed to get file"` on
the object store) distinct from the NotFound error. -/
theorem get_notfound_vs_io (st : StoreState) (id : String) :
    (lookupEntry st.meta id = none →
      Filesystem.Get st id = .error "item not found" ∧
      S3Storage.Get st id = .error "item not found") ∧
    (∀ it : Item, lookupEntry st.meta id = some it →
      lookupEntry st.files id = none →
      Filesystem.Get st id = .error "file not found" ∧
      S3Storage.Get st id = .error "failed to get file") ∧
    ("file not found" ≠ "item not found") ∧
    ("failed to get file" ≠ "item not found") := by
  refine ⟨fun h => ?_, fun it hm hf => ?_, by decide, by decide⟩ <;>
    simp_all [Filesystem.Get, Filesystem.GetMeta, S3Storage.Get, S3Storage.GetMeta]

theorem get_notfound_vs_io_witness :
    (Filesystem.Get ⟨[], []⟩ "aa" = .error "item not found" ∧
      S3Storage.Get ⟨[], []⟩ "aa" = .error "item not found") ∧
    (Filesystem.Get metaOnlySt "aa" = .error "file not found" ∧
      S3Storage.Get metaOnlySt "aa" = .error "failed to get file") :=
  ⟨(get_notfound_vs_io ⟨[], []⟩ "aa").1 rfl,
    (get_notfound_vs_io metaOnlySt "aa").2.1 itemOldA (by decide) rfl⟩

/-- C9: `Readdir(count)` on a synthetic directory handle returns all
remaining children (advancing to the end) when `count ≤ 0` — giving an
empty result and no error when already exhausted — returns the next
`min(count, remaining)` children and advances by that amount when
`0 < count` and children remain, and signals end-of-sequence (EOF) when
`0 < count` and the handle is exhausted. -/
theorem readdir_pagination (d : davDir) (count : Int) :
    (count ≤ 0 →
      d.Readdir count =
        ({ d with pos := d.pos + (d.children.length - d.pos) },
          d.children.drop d.pos, none)) ∧
    (0 < count → d.children.length ≤ d.pos →
      d.Readdir count = (d, [], some .eof)) ∧
    (0 < count → d.pos < d.children.length →
      d.Readdir count =
        ({ d with pos := d.pos + min count.toNat (d.children.length - d.pos) },
          (d.children.drop d.pos).take (min count.toNat (d.children.length - d.pos)),
          none)) := by
  refine ⟨fun hc => ?_, fun hc hex => ?_, fun hc hlt => ?_⟩
  · by_cases hex : d.children.length ≤ d.pos
    · have h0 : d.children.length - d.pos = 0 := by omega
      have hdrop : d.children.drop d.pos = [] := List.drop_eq_nil_of_le hex
      simp [davDir.Readdir, hex, hc, h0, hdrop]
    · have hlt : d.pos < d.children.length := by omega
      have hnle : ¬ d.children.length ≤ d.pos := hex
      have htake : (d.children.drop d.pos).take (d.children.length - d.pos) =
          d.children.drop d.pos :=
        List.take_of_length_le (by simp)
      simp [davDir.Readdir, hnle, hc, htake]
  · have hcn : ¬ count ≤ 0 := by omega
    simp [davDir.Readdir, hex, hcn]
  · have hnle : ¬ d.children.length ≤ d.pos := by omega
    have hcn : ¬ count ≤ 0 := by omega
    by_cases hbig : ((d.children.length : Int) - d.pos) < count
    · have hmin : min count.toNat (d.children.length - d.pos) =
          d.children.length - d.pos := by omega
      simp [davDir.Readdir, hnle, hcn, hbig, hmin]
    · have hmin : min count.toNat (d.children.length - d.pos) = count.toNat := by
        omega
      simp [davDir.Readdir, hnle, hcn, hbig, hmin]

theorem readdir_pagination_witness :
    (davDir.Readdir ⟨⟨"/", 0, 0, 0, true⟩,
        [⟨"a", 0, 0, 0, false⟩, ⟨"b", 0, 0, 0, false⟩, ⟨"c", 0, 0, 0, false⟩], 1⟩
        2 =
      (⟨⟨"/", 0, 0, 0, true⟩,
        [⟨"a", 0, 0, 0, false⟩, ⟨"b", 0, 0, 0, false⟩, ⟨"c", 0, 0, 0, false⟩], 3⟩,
        [⟨"b", 0, 0, 0, false⟩, ⟨"c", 0, 0, 0, false⟩], none)) ∧
    (davDir.Readdir ⟨⟨"/", 0, 0, 0, true⟩, [⟨"a", 0, 0, 0, false⟩], 1⟩ 2 =
      (⟨⟨"/", 0, 0, 0, true⟩, [⟨"a", 0, 0, 0, false⟩], 1⟩, [], some .eof)) ∧
    (davDir.Readdir ⟨⟨"/", 0, 0, 0, true⟩, [⟨"a", 0, 0, 0, false⟩], 1⟩ 0 =
      (⟨⟨"/", 0, 0, 0, true⟩, [⟨"a", 0, 0, 0, false⟩], 1⟩, [], none)) := by
  refine ⟨?_, ?_, ?_⟩
  · exact (readdir_pagination
      ⟨⟨"/", 0, 0, 0, true⟩,
        [⟨"a", 0, 0, 0, false⟩, ⟨"b", 0, 0, 0, false⟩, ⟨"c", 0, 0, 0, false⟩], 1⟩
      2).2.2 (by decide) (by decide)
  · exact (readdir_pagination
      ⟨⟨"/", 0, 0, 0, true⟩, [⟨"a", 0, 0, 0, false⟩], 1⟩ 2).2.1
      (by decide) (by decide)
  · exact (readdir_pagination
      ⟨⟨"/", 0, 0, 0, true⟩, [⟨"a", 0, 0, 0, false⟩], 1⟩ 0).1 (by decide)

/-- C8: `Close` is idempotent — on an already-closed handle it is a no-op
returning no error and leaving the store untouched, and re-closing the
handle returned by a first `Close` is likewise a no-op — and the first
`Close` always commits through a single backend `Put`: under the freshly
generated id the store gains the buffered bytes as blob and an `Item` with
`render_mode = "auto"`, content type from `detectContentType` (filename
first, content sniffing as fallback), the creation time, the owner token,
and size equal to the buffered length (0 for a never-written handle). -/
theorem close_commits_and_idempotent (f : davWriteFile) (st : StoreState)
    (freshId : String) (now : Nat) :
    (f.closed = true → davWriteFile.Close fsBackend f st freshId now = (f, st, none)) ∧
    (f.closed = false →
      (davWriteFile.Close fsBackend f st freshId now).1 = { f with closed := true } ∧
      (davWriteFile.Close fsBackend f st freshId now).2.2 = none ∧
      lookupEntry (davWriteFile.Close fsBackend f st freshId now).2.1.files freshId =
        some f.buffer ∧
      lookupEntry (davWriteFile.Close fsBackend f st freshId now).2.1.meta freshId =
        some { id := freshId, filename := f.name,
               contentType := detectContentType f.name f.buffer,
               size := f.buffer.length, renderMode := "auto",
               createdAt := now, ownerToken := f.token } ∧
      davWriteFile.Close fsBackend
          (davWriteFile.Close fsBackend f st freshId now).1
          (davWriteFile.Close fsBackend f st freshId now).2.1 freshId now =
        ((davWriteFile.Close fsBackend f st freshId now).1,
          (davWriteFile.Close fsBackend f st freshId now).2.1, none)) := by
  constructor
  · intro h
    simp [davWriteFile.Close, h]
  · intro h
    refine ⟨?_, ?_, ?_, ?_, ?_⟩ <;>
      simp [davWriteFile.Close, h, fsBackend, Filesystem.Put, Filesystem.noFail,
        lookupEntry_setEntry_self]

theorem close_commits_witness :
    (davWriteFile.Close fsBackend ⟨"n", "t", [], 0, true⟩ ⟨[], []⟩ "id1" 7 =
      (⟨"n", "t", [], 0, true⟩, ⟨[], []⟩, none)) ∧
    lookupEntry
        (davWriteFile.Close fsBackend ⟨"n", "t", [], 0, false⟩ ⟨[], []⟩ "id1" 7).2.1.meta
        "id1" =
      some ⟨"id1", "n", "text/plain", 0, "auto", 7, "t"⟩ :=
  ⟨(close_commits_and_idempotent ⟨"n", "t", [], 0, true⟩ ⟨[], []⟩ "id1" 7).1 rfl,
    ((close_commits_and_idempotent ⟨"n", "t", [], 0, false⟩ ⟨[], []⟩ "id1" 7).2
      rfl).2.2.2.1⟩

/-- C10: opening a non-root path with write-intent flags succeeds with a
fresh empty buffered handle whose form does not depend on the store (the
store is never consulted, even when a same-named item exists), and a later
`Close` committing under a fresh id leaves the blob and metadata of every
other id exactly as they were while adding the new item — so a same-named
upload yields two coexisting items and never modifies or replaces an
existing one. -/
theorem openfile_write_fresh (B : Backend) (maxFileSize : Int) (st : StoreState)
    (token name : String) (flag : Nat) (now : Nat) (freshId : String)
    (f : davWriteFile) (k : String)
    (hname : WebDAV.cleanPath name ≠ "" ∧ WebDAV.cleanPath name ≠ "/")
    (hflag : WebDAV.hasWriteIntent flag = true)
    (hf : f.closed = false) (hk : k ≠ freshId) :
    (WebDAV.OpenFile B maxFileSize st token name flag now =
      .ok (.write { name := WebDAV.cleanPath name, token := token, buffer := [],
                    maxFileSize := maxFileSize, closed := false })) ∧
    (lookupEntry (davWriteFile.Close fsBackend f st freshId now).2.1.files k =
      lookupEntry st.files k) ∧
    (lookupEntry (davWriteFile.Close fsBackend f st freshId now).2.1.meta k =
      lookupEntry st.meta k) ∧
    (lookupEntry (davWriteFile.Close fsBackend f st freshId now).2.1.meta freshId ≠
      none) := by
  refine ⟨?_, ?_, ?_, ?_⟩
  · simp [WebDAV.OpenFile, hname.1, hname.2, hflag, WebDAV.createFile]
  · simp [davWriteFile.Close, hf, fsBackend, Filesystem.Put, Filesystem.noFail,
      lookupEntry_setEntry_ne _ _ _ _ hk]
  · simp [davWriteFile.Close, hf, fsBackend, Filesystem.Put, Filesystem.noFail,
      lookupEntry_setEntry_ne _ _ _ _ hk]
  · simp [davWriteFile.Close, hf, fsBackend, Filesystem.Put, Filesystem.noFail,
      lookupEntry_setEntry_self]

theorem openfile_write_fresh_witness :
    (WebDAV.OpenFile fsBackend 0 exampleSt "t" "/f.txt" 577 9 =
      .ok (.write ⟨"f.txt", "t", [], 0, false⟩)) ∧
    (lookupEntry
        (davWriteFile.Close fsBackend ⟨"f.txt", "t", [9], 0, false⟩ exampleSt "zz" 9).2.1.meta
        "aa" = some itemOldA) ∧
    (lookupEntry
        (davWriteFile.Close fsBackend ⟨"f.txt", "t", [9], 0, false⟩ exampleSt "zz" 9).2.1.meta
        "zz" ≠ none) := by
  have h := openfile_write_fresh fsBackend 0 exampleSt "t" "/f.txt" 577 9 "zz"
    ⟨"f.txt", "t", [9], 0, false⟩ "aa" (by decide) (by decide) rfl (by decide)
  exact ⟨h.1, h.2.2.1.trans (by decide), h.2.2.2⟩

theorem metaKey_length (s : String) : (S3Storage.metaKey s).length = 5 + s.length + 5 := by
  simp [S3Storage.metaKey, String.length_append]
  rfl

theorem metaKey_length_iff (s : String) : 10 < (S3Storage.metaKey s).length ↔ s ≠ "" := by
  rw [metaKey_length]
  constructor
  · intro h he
    subst he
    simp [String.length] at h
  · intro h
    have h1 : 0 < s.length := by
      cases s with
      | mk data =>
        cases data with
        | nil => exact absurd rfl h
        | cons c cs => simp [String.length]
    omega

theorem fsList_sorted (st : StoreState) (owner : String) :
    List.Sorted (fun a b : Item => b.createdAt ≤ a.createdAt)
      (Filesystem.List st owner) := by
  haveI : IsTotal Item (fun a b => b.createdAt ≤ a.createdAt) :=
    ⟨fun a b => Nat.le_total _ _⟩
  haveI : IsTrans Item (fun a b => b.createdAt ≤ a.createdAt) :=
    ⟨fun a b c h1 h2 => Nat.le_trans h2 h1⟩
  exact List.sorted_insertionSort _ _

/-- C2 (amended): on both backends `List(owner)` returns exactly the items
whose `owner_token` equals `owner` (as a permutation of the owner's items —
for the object store, of those stored under a non-empty id); the filesystem
backend additionally returns them newest-first by `created_at`, while the
object-store backend applies no such sort (see the counterexample). -/
theorem list_exact_owner (st : StoreState) (owner : String) :
    (Filesystem.List st owner).Perm
      ((st.meta.map (·.2)).filter (fun it => it.ownerToken = owner)) ∧
    List.Sorted (fun a b : Item => b.createdAt ≤ a.createdAt)
      (Filesystem.List st owner) ∧
    (S3Storage.List st owner).Perm
      (((st.meta.filter (fun e => e.1 ≠ "")).map (·.2)).filter
        (fun it => it.ownerToken = owner)) := by
  refine ⟨?_, fsList_sorted st owner, ?_⟩
  · exact (List.perm_insertionSort _ _).trans
      (((List.perm_insertionSort _ _).map _).filter _)
  · have h1 : (st.meta.insertionSort
        (fun a b => strLe (S3Storage.metaKey a.1) (S3Storage.metaKey b.1) = true)).Perm
        st.meta := List.perm_insertionSort _ _
    have h2 := h1.filter (fun e => decide (10 < (S3Storage.metaKey e.1).length))
    have h3 : st.meta.filter (fun e => 10 < (S3Storage.metaKey e.1).length) =
        st.meta.filter (fun e => e.1 ≠ "") :=
      List.filter_congr (fun a _ => decide_eq_decide.mpr (metaKey_length_iff a.1))
    have h4 := (h2.map (·.2)).filter (fun it => decide (it.ownerToken = owner))
    rw [h3] at h4
    exact h4

/-- C2 (counterexample): at a concrete two-item store the object-store
backend's `List` returns the older item first — it is the lexicographic key
order, not newest-first by `created_at` — so the claim that both backends
return newest-first order is false. -/
theorem list_newest_first_counterexample :
    S3Storage.List exampleSt "t" = [itemOldA, itemNewB] ∧
    itemOldA.createdAt < itemNewB.createdAt ∧
    ¬ List.Sorted (fun a b : Item => b.createdAt ≤ a.createdAt)
      (S3Storage.List exampleSt "t") :=
  ⟨by decide, by decide, by decide⟩

theorem find?_newest (l : List Item) (nm : String) (it : Item)
    (hs : List.Sorted (fun a b : Item => b.createdAt ≤ a.createdAt) l)
    (h : l.find? (fun x => WebDAV.displayName x = nm) = some it) :
    ∀ it' ∈ l, WebDAV.displayName it' = nm → it'.createdAt ≤ it.createdAt := by
  induction l with
  | nil => simp at h
  | cons x xs ih =>
    by_cases hx : WebDAV.displayName x = nm
    · have hit : it = x := by
        rw [List.find?_cons] at h
        simp [hx] at h
        exact h.symm
      subst hit
      intro it' h1 h2
      rcases List.mem_cons.mp h1 with h1 | h1
      · subst h1; exact le_refl _
      · exact List.rel_of_sorted_cons hs it' h1
    · have h' : xs.find? (fun x => WebDAV.displayName x = nm) = some it := by
        rw [List.find?_cons] at h
        simpa [hx] using h
      intro it' h1 h2
      rcases List.mem_cons.mp h1 with h1 | h1
      · exact absurd (h1 ▸ h2) hx
      · exact ih ((List.sorted_cons.mp hs).2) h' it' h1 h2

/-- C5 (amended): on the filesystem backend, when `findByFilename` resolves
a name it returns an item bearing that derived display name, drawn from the
owner's `List`, whose `created_at` is maximal among all listed items with
that display name (the first match in newest-first order), and `Stat`
reports exactly that item; on the object-store backend the first match in
lexicographic id order wins instead, which need not be the most recent (see
the counterexample). -/
theorem stat_resolves_newest_fs (st : StoreState) (token name : String)
    (now : Nat) (it : Item)
    (hroot : name ≠ "" ∧ name ≠ "/")
    (hclean : WebDAV.cleanPath name = name)
    (h : WebDAV.findByFilename fsBackend st token name = some it) :
    WebDAV.displayName it = name ∧
    it ∈ Filesystem.List st token ∧
    (∀ it' ∈ Filesystem.List st token, WebDAV.displayName it' = name →
      it'.createdAt ≤ it.createdAt) ∧
    WebDAV.Stat fsBackend st token name now =
      .ok { name := it.filename, size := it.size, mode := fileMode,
            modTime := it.createdAt, isDir := false } := by
  have hfind : (Filesystem.List st token).find?
      (fun x => WebDAV.displayName x = name) = some it := h
  refine ⟨?_, ?_, ?_, ?_⟩
  · have := List.find?_some hfind
    simpa using this
  · exact List.mem_of_find?_eq_some hfind
  · exact find?_newest _ name it (fsList_sorted st token) hfind
  · simp [WebDAV.Stat, hclean, hroot.1, hroot.2, WebDAV.findByFilename] at h ⊢
    simp [h]

theorem stat_resolves_newest_fs_witness :
    WebDAV.displayName itemNewB = "f.txt" ∧
    itemNewB ∈ Filesystem.List exampleSt "t" ∧
    (∀ it' ∈ Filesystem.List exampleSt "t", WebDAV.displayName it' = "f.txt" →
      it'.createdAt ≤ itemNewB.createdAt) ∧
    WebDAV.Stat fsBackend exampleSt "t" "f.txt" 9 =
      .ok { name := itemNewB.filename, size := itemNewB.size, mode := fileMode,
            modTime := itemNewB.createdAt, isDir := false } :=
  stat_resolves_newest_fs exampleSt "t" "f.txt" 9 itemNewB
    ⟨by decide, by decide⟩ (by decide) (by decide)

/-- C5 (counterexample): at a concrete store holding two items of owner
`"t"` that share the display name `"f.txt"`, the object-store backend's
resolution returns `itemOldA` (first in lexicographic id order) even though
`itemNewB` shares the name and was created later — so the claim that both
backends resolve to the most-recently-created item is false. -/
theorem stat_resolves_newest_counterexample :
    WebDAV.findByFilename s3Backend exampleSt "t" "f.txt" = some itemOldA ∧
    WebDAV.Stat s3Backend exampleSt "t" "f.txt" 9 =
      .ok { name := "f.txt", size := 1, mode := fileMode,
            modTime := 1, isDir := false } ∧
    itemNewB ∈ S3Storage.List exampleSt "t" ∧
    WebDAV.displayName itemNewB = "f.txt" ∧
    itemOldA.createdAt < itemNewB.createdAt :=
  ⟨by decide, rfl, by decide, by decide, by decide⟩
